import Mathlib

/-!
Verification of the execution core of a minimal RISC-V kernel
(rCore-Tutorial-in-single-workspace, chapters 3 and 4, RV64 configuration).

The development shallowly embeds the code that the checked claims are about:

* the console timestamping routine `print_with_timestamp` and the
  `write` / `clock_gettime` syscall implementations (src/ch4/src/main.rs);
* one iteration of the scheduler loop `schedule` (src/ch4/src/main.rs);
* the ELF process loader `Process::new` (src/ch4/src/process.rs);
* the machine-mode SBI monitor `m_trap_handler` (src/ch3/src/msbi.rs).

External collaborators (the page-table/MMU abstraction, the allocator,
ELF byte parsing) are abstracted: translation is a parameter function,
allocations are parameters, and an ELF image is its parsed structure.
Code of the repository that lives outside the given sources (the
`syscall` id table, `LocalContext` register accessors) is modelled from
the specification, as marked in doc comments.
-/

namespace Kernel

/-! ### Console timestamping (src/ch4/src/main.rs, print_with_timestamp) -/

/-- Decimal digits of a number as ASCII bytes (Rust Display for usize). -/
def decDigits (n : Nat) : List Nat :=
  (Nat.toDigits 10 n).map Char.toNat

/-- Byte rendering of the timestamp written at each line start by
print_with_timestamp: the format string `[{ts_ms:>5} ms] ` — an opening
bracket, the millisecond count right-aligned in a field of width 5,
then a space, `ms]` and a trailing space. -/
def tsBytes (tsMs : Nat) : List Nat :=
  let ds := decDigits tsMs
  91 :: (List.replicate (5 - ds.length) 32 ++ ds) ++ [32, 109, 115, 93, 32]

/-- Rust str split_inclusive on a separator byte, as used by
print_with_timestamp with sep = newline: the string is cut after every
separator, a final fragment without the separator is kept, and the empty
string yields no segments. -/
def splitInclusive (sep : Nat) : List Nat → List (List Nat)
  | [] => []
  | x :: xs =>
    if x = sep then [x] :: splitInclusive sep xs
    else
      match splitInclusive sep xs with
      | [] => [[x]]
      | seg :: rest => (x :: seg) :: rest

/-- Whether a segment ends with the newline byte
(Rust segment.ends_with of a newline). -/
def endsNl (seg : List Nat) : Bool :=
  seg.getLast? == some 10

/-- The loop body of print_with_timestamp over the list of segments:
in state at_line_start, each segment is printed after a timestamp when
at_line_start holds, and the state becomes whether the segment ended
with a newline.  Returns (emitted bytes, final at_line_start). -/
def printSegs (tsb : List Nat) : Bool → List (List Nat) → List Nat × Bool
  | ls, [] => ([], ls)
  | ls, seg :: rest =>
    let r := printSegs tsb (endsNl seg) rest
    ((if ls then tsb else []) ++ seg ++ r.1, r.2)

/-- Shallow embedding of print_with_timestamp (src/ch4/src/main.rs):
taking the global LINE_START flag as input state, splits the text
inclusively at newlines and prints each segment, prefixed by the
timestamp exactly at line starts; returns the console bytes and the
updated LINE_START flag.  The millisecond clock is held constant for
the duration of one call. -/
def print_with_timestamp (tsMs : Nat) (ls : Bool) (s : List Nat) : List Nat × Bool :=
  printSegs (tsBytes tsMs) ls (splitInclusive 10 s)

/-! ### Specification-side description of the timestamped output

The spec says: the emitted console bytes equal the buffer contents
exactly, with a timestamp inserted only immediately after each newline
(and at the start of the text when the output is at a line start). -/

/-- Statement of the spec output shape: the input bytes verbatim, with
the timestamp block inserted immediately after each newline byte that is
followed by further bytes of the same call. -/
def insertAfterNl (tsb : List Nat) : List Nat → List Nat
  | [] => []
  | [x] => [x]
  | x :: y :: xs =>
    (if x = 10 then x :: tsb else [x]) ++ insertAfterNl tsb (y :: xs)

/-- Statement of the spec output in full: nothing for an empty buffer;
otherwise a timestamp when starting at a line start, then the buffer
bytes with a timestamp after each internal newline. -/
def specTimestamped (tsb : List Nat) (ls : Bool) (s : List Nat) : List Nat :=
  if s.isEmpty then [] else (if ls then tsb else []) ++ insertAfterNl tsb s

/-- The line-start state after printing a buffer: unchanged for an empty
buffer, and otherwise whether the buffer ends with a newline. -/
def specLineState (ls : Bool) (s : List Nat) : Bool :=
  if s.isEmpty then ls else s.getLast? == some 10

/-! ### Syscall implementations (src/ch4/src/main.rs, mod impls) -/

/-- Page-table entry permission flags consumed by translation
(user, execute, write, read, valid, global). -/
structure VmFlags where
  v : Bool := false
  r : Bool := false
  w : Bool := false
  x : Bool := false
  u : Bool := false
  g : Bool := false
deriving DecidableEq

/-- Flags built from the string RV in SyscallContext::write: readable and valid. -/
def READABLE : VmFlags := { v := true, r := true }

/-- Flags built from the string W_V in SyscallContext::clock_gettime:
writable and valid. -/
def WRITABLE : VmFlags := { v := true, w := true }

/-- Modelled from the spec: the supported output stream ids of the
syscall crate (not among the given sources); WRITE accepts exactly the
standard output and debug streams. -/
def STDOUT : Nat := 1

/-- Modelled from the spec: the debug output stream id of the syscall
crate (not among the given sources). -/
def STDDEBUG : Nat := 2

/-- Interpretation of a usize value as a Rust isize (the cast
`count as isize`): two-complement wrap at 2^63. -/
def isizeOfNat (n : Nat) : Int :=
  if n % 2 ^ 64 < 2 ^ 63 then (n % 2 ^ 64 : Nat) else (n % 2 ^ 64 : Nat) - 2 ^ 64

/-- Value landing in a usize register when an isize is stored into it
(the cast `ret as usize` in the scheduler). -/
def regOfInt (i : Int) : Nat :=
  (i % (2 ^ 64 : Int)).toNat

/-- The count consecutive bytes of physical memory starting at address p. -/
def readBytes (mem : Nat → Nat) (p count : Nat) : List Nat :=
  (List.range count).map fun i => mem (p + i)

/-- Shallow embedding of SyscallContext::write (src/ch4/src/main.rs).
The address space of the process is the abstract translation function tr;
mem is physical memory; tsMs the millisecond clock; ls the LINE_START
flag.  Returns (isize result, console bytes, new LINE_START flag).
For a supported fd the single starting address buf is translated with
read permission; on success the count bytes following the translated
pointer are printed with timestamping and the call returns count (as
isize); otherwise the call returns -1 and prints nothing. -/
def write (tr : Nat → VmFlags → Option Nat) (mem : Nat → Nat) (tsMs : Nat)
    (ls : Bool) (fd buf count : Nat) : Int × List Nat × Bool :=
  if fd = STDOUT ∨ fd = STDDEBUG then
    match tr buf READABLE with
    | some p =>
      let r := print_with_timestamp tsMs ls (readBytes mem p count)
      (isizeOfNat count, r.1, r.2)
    | none => (-1, [], ls)
  else (-1, [], ls)

/-- Time-of-day record written by clock_gettime (struct TimeSpec). -/
structure TimeSpec where
  tv_sec : Nat
  tv_nsec : Nat
deriving DecidableEq

/-- Modelled from the spec: the identifier of the monotonic clock in the
syscall crate (not among the given sources); the only supported clock id. -/
def CLOCK_MONOTONIC : Nat := 1

/-- Shallow embedding of monotonic_time_ns (src/ch4/src/main.rs):
the hardware cycle counter scaled by 10000 / 125 in wrapping 64-bit
arithmetic. -/
def monotonic_time_ns (counter : Nat) : Nat :=
  counter % 2 ^ 64 * 10000 % 2 ^ 64 / 125

/-- Shallow embedding of monotonic_time_ms (src/ch4/src/main.rs). -/
def monotonic_time_ms (counter : Nat) : Nat :=
  monotonic_time_ns counter / 1000000

/-- Memory effect of a syscall: console output, or a TimeSpec stored
through a translated pointer. -/
inductive Effect
  | console (bytes : List Nat)
  | store (paddr : Nat) (ts : TimeSpec)
deriving DecidableEq

/-- Shallow embedding of SyscallContext::clock_gettime
(src/ch4/src/main.rs): only CLOCK_MONOTONIC is accepted; the pointer is
translated with write permission; on success the scaled counter is split
into seconds and nanoseconds, stored through the translated pointer, and
0 is returned; otherwise -1. -/
def clock_gettime (tr : Nat → VmFlags → Option Nat) (counter : Nat)
    (clockId tp : Nat) : Int × List Effect :=
  if clockId = CLOCK_MONOTONIC then
    match tr tp WRITABLE with
    | some p =>
      let t := monotonic_time_ns counter
      (0, [.store p ⟨t / 1000000000, t % 1000000000⟩])
    | none => (-1, [])
  else (-1, [])

/-! ### Scheduler / syscall dispatcher (src/ch4/src/main.rs, schedule) -/

/-- Modelled from the spec: the EXIT syscall id of the syscall crate
(not among the given sources; conventional RISC-V Linux numbering). -/
def SYS_EXIT : Nat := 93

/-- Modelled from the spec: the WRITE syscall id of the syscall crate. -/
def SYS_WRITE : Nat := 64

/-- Modelled from the spec: the SCHED_YIELD syscall id of the syscall crate. -/
def SYS_SCHED_YIELD : Nat := 124

/-- Modelled from the spec: the CLOCK_GETTIME syscall id of the syscall crate. -/
def SYS_CLOCK_GETTIME : Nat := 113

/-- Whether a syscall id has a registered handler: exactly the four ids the
scheduler installs through init_io, init_process, init_scheduling and
init_clock. -/
def handledId (id : Nat) : Bool :=
  id = SYS_EXIT ∨ id = SYS_WRITE ∨ id = SYS_SCHED_YIELD ∨ id = SYS_CLOCK_GETTIME

/-- Runtime view of a Process at scheduling time: the saved program counter
and argument registers of its ForeignContext, and the translation function
of its own AddressSpace. -/
structure ProcState where
  pc : Nat
  a0 : Nat
  a1 : Nat
  a2 : Nat
  a3 : Nat
  a4 : Nat
  a5 : Nat
  a6 : Nat
  a7 : Nat
  translate : Nat → VmFlags → Option Nat

/-- Result of syscall dispatch (syscall crate): a handled call carries an
isize return value; an unknown id is unsupported. -/
inductive SyscallResult
  | Done (ret : Int)
  | Unsupported

/-- Modelled from the spec: syscall::handle dispatch over the capability
table built at scheduler start (the syscall crate is not among the given
sources).  The four installed ids are handled by the SyscallContext
implementations embedded above; any other id yields Unsupported.  The
caller entity is the head process p.  Returns the result, the memory and
console effects, and the updated LINE_START flag. -/
def syscallHandle (mem : Nat → Nat) (counter : Nat) (ls : Bool) (p : ProcState)
    (id : Nat) : SyscallResult × List Effect × Bool :=
  if id = SYS_EXIT then (.Done 0, [], ls)
  else if id = SYS_WRITE then
    let r := write p.translate mem (monotonic_time_ms counter) ls p.a0 p.a1 p.a2
    (.Done r.1, [.console r.2.1], r.2.2)
  else if id = SYS_SCHED_YIELD then (.Done 0, [], ls)
  else if id = SYS_CLOCK_GETTIME then
    let r := clock_gettime p.translate counter p.a0 p.a1
    (.Done r.1, r.2, ls)
  else (.Unsupported, [], ls)

/-- Trap cause returned from a portal crossing, as decoded by the
scheduler: an environment call from user mode, or any other cause. -/
inductive Trap
  | userEnvCall
  | other (cause stval : Nat)

/-- State owned by the scheduler loop: the FIFO run queue PROCESSES and
the console LINE_START flag. -/
structure KState where
  queue : List ProcState
  lineStart : Bool

/-- Shallow embedding of one iteration of the scheduler loop schedule
(src/ch4/src/main.rs): the head process has just trapped with the given
cause.  On an environment call the syscall id is read from a7 and
dispatched; EXIT removes the head; any other handled id writes the return
value into a0 (move_next: modelled from the spec, the saved program counter
is advanced past the 4-byte ecall instruction) and keeps the head; an
unsupported id removes the head.  Any other trap cause removes the head.
Returns the new scheduler state and the effects of the iteration. -/
def scheduleStep (mem : Nat → Nat) (counter : Nat) (cause : Trap)
    (st : KState) : KState × List Effect :=
  match st.queue with
  | [] => (st, [])
  | p :: rest =>
    match cause with
    | .userEnvCall =>
      match syscallHandle mem counter st.lineStart p p.a7 with
      | (.Done ret, effs, ls) =>
        if p.a7 = SYS_EXIT then ({ queue := rest, lineStart := ls }, effs)
        else
          ({ queue := { p with a0 := regOfInt ret, pc := p.pc + 4 } :: rest,
             lineStart := ls }, effs)
      | (.Unsupported, _, _) => ({ queue := rest, lineStart := st.lineStart }, [])
    | .other _ _ => ({ queue := rest, lineStart := st.lineStart }, [])

/-! ### ELF process loader (src/ch4/src/process.rs, Process::new) -/

/-- ELF file type consumed from the header (must be Executable). -/
inductive ElfObjType
  | Executable
  | otherType (tag : Nat)
deriving DecidableEq

/-- ELF target instruction-set architecture consumed from the header. -/
inductive Machine
  | RISC_V
  | otherMachine (tag : Nat)
deriving DecidableEq

/-- The architecture-dependent second part of the ELF header: a 32-bit or
64-bit header carrying the file type, the machine and the entry point. -/
inductive HeaderPt2
  | Header32 (typ : ElfObjType) (machine : Machine) (entry : Nat)
  | Header64 (typ : ElfObjType) (machine : Machine) (entry : Nat)
deriving DecidableEq

/-- Type of a program header (only Load segments are mapped). -/
inductive PhType
  | Load
  | otherPh (tag : Nat)
deriving DecidableEq

/-- Consumed fields of one ELF program header. -/
structure ProgramHeader where
  phType : PhType
  offset : Nat
  fileSize : Nat
  virtualAddr : Nat
  memSize : Nat
  isExecute : Bool
  isWrite : Bool
  isRead : Bool
deriving DecidableEq

/-- A parsed ELF image: the header part 2, the program headers and the raw
input bytes (ELF byte parsing itself is an external collaborator). -/
structure ElfFile where
  pt2 : HeaderPt2
  programs : List ProgramHeader
  input : List Nat
deriving DecidableEq

/-- The entry point recorded in the header of an ELF image. -/
def ElfFile.entry (elf : ElfFile) : Nat :=
  match elf.pt2 with
  | .Header32 _ _ e => e
  | .Header64 _ _ e => e

/-- The header validation performed by Process::new on RV64: the second
header part must be a 64-bit header whose type is Executable and whose
machine is RISC_V (the target instruction-set architecture). -/
def headerValid (elf : ElfFile) : Bool :=
  match elf.pt2 with
  | .Header64 typ machine _ => typ = ElfObjType.Executable ∧ machine = Machine.RISC_V
  | .Header32 _ _ _ => false

/-- Mapping operation recorded against an AddressSpace (the mapping
primitives of kernel_vm are consumed, not modelled): map copies data bytes
at an in-page offset over a virtual page range, mapExtern maps a virtual
page range onto given physical pages. -/
inductive MapOp
  | map (vpnStart vpnEnd : Nat) (data : List Nat) (offset : Nat) (flags : VmFlags)
  | mapExtern (vpnStart vpnEnd : Nat) (ppn : Nat) (flags : VmFlags)
deriving DecidableEq

/-- Permission flags of a loadable segment, built by Process::new from the
byte string U___V with X, W, R patched in from the segment flags. -/
def segFlags (p : ProgramHeader) : VmFlags :=
  { u := true, x := p.isExecute, w := p.isWrite, r := p.isRead, v := true }

/-- Flags of the user stack mapping, built from the string U_WRV. -/
def stackFlags : VmFlags :=
  { u := true, w := true, r := true, v := true }

/-- The segment-mapping loop of Process::new: Load segments are mapped over
the page range covering [virtual address, virtual address + memory size),
copying the file bytes at the in-page offset.  The loop panics (Except
error) when the page-internal offsets of file offset and virtual address
disagree (the assert) or when the file range does not fit in the image
(Rust slice bounds). -/
def loadSegs (input : List Nat) : List ProgramHeader → Except Unit (List MapOp)
  | [] => .ok []
  | p :: ps =>
    match p.phType with
    | .Load =>
      if p.offset % 4096 = p.virtualAddr % 4096 then
        if p.offset + p.fileSize ≤ input.length then
          match loadSegs input ps with
          | .ok ms =>
            .ok (.map (p.virtualAddr / 4096) ((p.virtualAddr + p.memSize + 4095) / 4096)
                  ((input.drop p.offset).take p.fileSize) (p.virtualAddr % 4096)
                  (segFlags p) :: ms)
          | .error e => .error e
        else .error ()
      else .error ()
    | .otherPh _ => loadSegs input ps

/-- Well-formedness of the loadable segments, as checked along the way by
Process::new: page-internal offsets agree and the file range fits. -/
def segsWellFormed (input : List Nat) : List ProgramHeader → Bool
  | [] => true
  | p :: ps =>
    (match p.phType with
     | .Load => decide (p.offset % 4096 = p.virtualAddr % 4096)
         && decide (p.offset + p.fileSize ≤ input.length)
     | .otherPh _ => true) && segsWellFormed input ps

/-- A constructed process: the saved program counter and stack pointer of
its initial context (LocalContext::user is modelled from the spec: the
program counter is the given entry point and registers start cleared),
the page-table token satp, and the mappings of its AddressSpace. -/
structure Process where
  pc : Nat
  sp : Nat
  satp : Nat
  maps : List MapOp
deriving DecidableEq

/-- Shallow embedding of Process::new (src/ch4/src/process.rs, RV64):
validates the header (64-bit executable for RISC-V, else no process), maps
every Load segment (panicking on a violated page-offset invariant), maps a
two-page zeroed user stack at the fixed high virtual range ending at page
number 2^26, and builds the context with program counter = entry, stack
pointer = 2^38 and satp = Sv39 mode bits plus the root page number.
The page numbers handed out by the allocator for the address-space root
and the stack are parameters. -/
def Process.new (rootPpn stackPpn : Nat) (elf : ElfFile) : Except Unit (Option Process) :=
  match elf.pt2 with
  | .Header64 typ machine entry =>
    if typ = ElfObjType.Executable ∧ machine = Machine.RISC_V then
      match loadSegs elf.input elf.programs with
      | .ok segs =>
        .ok (some
          { pc := entry
            sp := 1 <<< 38
            satp := (8 <<< 60) ||| rootPpn
            maps := segs ++
              [.mapExtern ((1 <<< 26) - 2) (1 <<< 26) stackPpn stackFlags] })
      | .error e => .error e
    else .ok none
  | .Header32 _ _ _ => .ok none

/-! ### Machine-mode SBI monitor (src/ch3/src/msbi.rs) -/

namespace Msbi

/-- Device and CSR state touched by the machine-mode monitor: the CLINT
timer-compare register, the machine interrupt-pending CSR, the bytes
written to the UART transmit register, and the value written to the test
finisher device (if any). -/
structure MState where
  mtimecmp : Nat
  mip : Nat
  uartOut : List Nat
  finisher : Option Nat
deriving DecidableEq

/-- SBI return value structure: (error code, value). -/
structure SbiRet where
  error : Int
  value : Nat
deriving DecidableEq

/-- SbiRet::success: error code 0 with the given value. -/
def SbiRet.success (v : Nat) : SbiRet := ⟨0, v⟩

/-- SbiRet::not_supported: the fixed negative sentinel -2, value 0. -/
def SbiRet.notSupported : SbiRet := ⟨-2, 0⟩

/-- Outcome of the machine-mode trap handler: a return to the caller with
an SbiRet, or a halt (system reset spins forever after writing the
finisher device). -/
inductive MOut
  | ret (r : SbiRet) (s : MState)
  | halt (s : MState)
deriving DecidableEq

/-- Shallow embedding of handle_console_putchar: emit the low byte of the
argument on the UART (the bounded transmit spin is external) and return
success(0). -/
def handle_console_putchar (s : MState) (c : Nat) : SbiRet × MState :=
  (SbiRet.success 0, { s with uartOut := s.uartOut ++ [c % 256] })

/-- Shallow embedding of handle_console_getchar: the optional pending UART
byte is a parameter; success(byte) when ready, success(all-bits-set) when
not. -/
def handle_console_getchar (s : MState) (rx : Option Nat) : SbiRet × MState :=
  match rx with
  | some c => (SbiRet.success c, s)
  | none => (SbiRet.success (2 ^ 64 - 1), s)

/-- Shallow embedding of handle_system_reset: write pass (0x5555) for
reason 0 or fail (0x3333) for any other reason to the test finisher
device, then spin forever. -/
def handle_system_reset (s : MState) (_resetType resetReason : Nat) : MOut :=
  .halt { s with finisher := some (if resetReason = 0 then 0x5555 else 0x3333) }

/-- Shallow embedding of handle_base: fixed spec version 2, impl id 0,
impl version 1, probe reports supported (1), vendor/arch/impl ids 0,
anything else unsupported. -/
def handle_base (fid : Nat) : SbiRet :=
  if fid = 0 then SbiRet.success 2
  else if fid = 1 then SbiRet.success 0
  else if fid = 2 then SbiRet.success 1
  else if fid = 3 then SbiRet.success 1
  else if fid = 4 then SbiRet.success 0
  else if fid = 5 then SbiRet.success 0
  else if fid = 6 then SbiRet.success 0
  else SbiRet.notSupported

/-- Shallow embedding of handle_timer: store the 64-bit time into the
CLINT timer-compare register, clear the supervisor-timer-interrupt-pending
bit (bit 5) of mip with a csrc, and return success(0). -/
def handle_timer (s : MState) (time : Nat) : SbiRet × MState :=
  (SbiRet.success 0,
    { s with mtimecmp := time, mip := Nat.ldiff s.mip (1 <<< 5) })

/-- The 64-bit absolute time assembled by the trap handler from the two
argument registers: a0 as the low half with a1 shifted left 32 bits, in
wrapping 64-bit unsigned arithmetic (the Rust casts to u64). -/
def assembleTime (a0 a1 : Nat) : Nat :=
  a0 % 2 ^ 64 ||| a1 % 2 ^ 64 * 2 ^ 32 % 2 ^ 64

/-- Shallow embedding of m_trap_handler (src/ch3/src/msbi.rs): reads the
trap cause from the mcause CSR (a parameter); any cause other than 9
(environment call from S-mode) returns the unsupported sentinel with no
side effect; otherwise the extension id selects the handler.  rx is the
optional pending UART receive byte. -/
def m_trap_handler (mcause : Nat) (rx : Option Nat) (s : MState)
    (a0 a1 _a2 _a3 _a4 _a5 fid eid : Nat) : MOut :=
  if mcause ≠ 9 then .ret SbiRet.notSupported s
  else if eid = 0x1 then
    let r := handle_console_putchar s a0
    .ret r.1 r.2
  else if eid = 0x2 then
    let r := handle_console_getchar s rx
    .ret r.1 r.2
  else if eid = 0x8 then handle_system_reset s 0 0
  else if eid = 0x10 then .ret (handle_base fid) s
  else if eid = 0x54494D45 then
    let r := handle_timer s (assembleTime a0 a1)
    .ret r.1 r.2
  else if eid = 0x53525354 then
    if fid = 0 then handle_system_reset s a0 a1 else .ret SbiRet.notSupported s
  else .ret SbiRet.notSupported s

end Msbi

/-! ### Equivalence of print_with_timestamp with the spec description -/

/-- Unfolding equation for printSegs on a segment. -/
theorem printSegs_cons (tsb : List Nat) (ls : Bool) (seg : List Nat)
    (rest : List (List Nat)) :
    printSegs tsb ls (seg :: rest)
      = ((if ls then tsb else []) ++ seg ++ (printSegs tsb (endsNl seg) rest).1,
         (printSegs tsb (endsNl seg) rest).2) := rfl

/-- Unfolding equation for splitInclusive on a nonempty string. -/
theorem splitInclusive_cons (sep x : Nat) (xs : List Nat) :
    splitInclusive sep (x :: xs)
      = if x = sep then [x] :: splitInclusive sep xs
        else match splitInclusive sep xs with
          | [] => [[x]]
          | seg :: rest => (x :: seg) :: rest := rfl

/-- A nonempty string always splits into at least one segment. -/
theorem splitInclusive_ne_nil (sep x : Nat) (xs : List Nat) :
    splitInclusive sep (x :: xs) ≠ [] := by
  simp only [splitInclusive]
  split
  · simp
  · split <;> simp

/-- The first segment of a split is never empty. -/
theorem splitInclusive_head_ne_nil (sep : Nat) (s seg : List Nat)
    (rest : List (List Nat)) (h : splitInclusive sep s = seg :: rest) : seg ≠ [] := by
  cases s with
  | nil => simp [splitInclusive] at h
  | cons x xs =>
    simp only [splitInclusive] at h
    split at h
    · cases h; simp
    · split at h
      · cases h; simp
      · cases h; simp

/-- Unfolding equation for insertAfterNl on a string of length at least two. -/
theorem insertAfterNl_cons (tsb : List Nat) (x : Nat) (xs : List Nat) (h : xs ≠ []) :
    insertAfterNl tsb (x :: xs)
      = (if x = 10 then x :: tsb else [x]) ++ insertAfterNl tsb xs := by
  cases xs with
  | nil => exact absurd rfl h
  | cons y ys => rfl

/-- Central equivalence: the segment-fold of print_with_timestamp produces
exactly the output the spec describes (buffer bytes verbatim, timestamp
inserted only at line starts, i.e. immediately after each newline or at the
start when the previous output ended a line), together with the line-start
flag for the next call. -/
theorem printSegs_eq_spec (tsb : List Nat) (s : List Nat) : ∀ ls : Bool,
    printSegs tsb ls (splitInclusive 10 s)
      = (specTimestamped tsb ls s, specLineState ls s) := by
  induction s with
  | nil =>
    intro ls
    simp [splitInclusive, printSegs, specTimestamped, specLineState]
  | cons x xs ih =>
    intro ls
    cases xs with
    | nil =>
      by_cases hx : x = 10 <;>
        simp [splitInclusive, hx, printSegs_cons, printSegs, endsNl,
          specTimestamped, specLineState, insertAfterNl]
    | cons y ys =>
      by_cases hx : x = 10
      · subst hx
        have h1 : splitInclusive 10 (10 :: y :: ys) = [10] :: splitInclusive 10 (y :: ys) := by
          simp [splitInclusive]
        have he : endsNl [10] = true := rfl
        rw [h1, printSegs_cons, he, ih true]
        simp [specTimestamped, specLineState, insertAfterNl, List.getLast?_cons_cons]
      · obtain ⟨seg, rest, hsi⟩ :
            ∃ seg rest, splitInclusive 10 (y :: ys) = seg :: rest := by
          cases h : splitInclusive 10 (y :: ys) with
          | nil => exact absurd h (splitInclusive_ne_nil 10 y ys)
          | cons a b => exact ⟨a, b, rfl⟩
        have hsegne : seg ≠ [] := splitInclusive_head_ne_nil 10 (y :: ys) seg rest hsi
        have h1 : splitInclusive 10 (x :: y :: ys) = (x :: seg) :: rest := by
          rw [splitInclusive_cons, if_neg hx, hsi]
        have hend : endsNl (x :: seg) = endsNl seg := by
          cases seg with
          | nil => exact absurd rfl hsegne
          | cons a as => simp [endsNl, List.getLast?_cons_cons]
        rw [h1, printSegs_cons, hend]
        have h3 := ih false
        rw [hsi, printSegs_cons] at h3
        simp only [if_neg Bool.false_ne_true, List.nil_append] at h3
        have h4 : seg ++ (printSegs tsb (endsNl seg) rest).1
            = specTimestamped tsb false (y :: ys) := congrArg Prod.fst h3
        have h5 : (printSegs tsb (endsNl seg) rest).2
            = specLineState false (y :: ys) := congrArg Prod.snd h3
        have h6 : insertAfterNl tsb (y :: ys) = seg ++ (printSegs tsb (endsNl seg) rest).1 := by
          rw [h4]; simp [specTimestamped]
        refine Prod.ext ?_ ?_
        · show (if ls then tsb else []) ++ (x :: seg) ++ (printSegs tsb (endsNl seg) rest).1
            = specTimestamped tsb ls (x :: y :: ys)
          rw [specTimestamped, insertAfterNl_cons tsb x (y :: ys) (by simp), if_neg hx]
          simp [h6]
        · show (printSegs tsb (endsNl seg) rest).2 = specLineState ls (x :: y :: ys)
          rw [h5]
          simp [specLineState, List.getLast?_cons_cons]

/-- Shared corollary: print_with_timestamp emits exactly the spec-described
bytes and updates the LINE_START flag as the spec describes. -/
theorem print_with_timestamp_eq_spec (tsMs : Nat) (ls : Bool) (s : List Nat) :
    print_with_timestamp tsMs ls s
      = (specTimestamped (tsBytes tsMs) ls s, specLineState ls s) :=
  printSegs_eq_spec (tsBytes tsMs) s ls

/-! ### Claim theorems -/

/-- C1: a WRITE syscall returns -1 for an unsupported fd; for a supported
fd it translates the buffer start through the address space of the calling
process with read permission; on translation failure it returns -1 and
emits nothing; on success it emits exactly the count buffer bytes with a
millisecond timestamp inserted only at line starts (immediately after each
newline, or at the very start when the previous output ended a line), and
returns count (count is returned through an isize, which equals count for
any count below 2^63). -/
theorem write_contract (tr : Nat → VmFlags → Option Nat) (mem : Nat → Nat)
    (tsMs : Nat) (ls : Bool) (fd buf count : Nat) :
    (¬(fd = STDOUT ∨ fd = STDDEBUG) →
      write tr mem tsMs ls fd buf count = (-1, [], ls))
    ∧ ((fd = STDOUT ∨ fd = STDDEBUG) → tr buf READABLE = none →
      write tr mem tsMs ls fd buf count = (-1, [], ls))
    ∧ ((fd = STDOUT ∨ fd = STDDEBUG) → ∀ p, tr buf READABLE = some p →
      write tr mem tsMs ls fd buf count
        = (isizeOfNat count,
           specTimestamped (tsBytes tsMs) ls (readBytes mem p count),
           specLineState ls (readBytes mem p count))
      ∧ (count < 2 ^ 63 → isizeOfNat count = count)) := by
  refine ⟨?_, ?_, ?_⟩
  · intro h
    simp [write, h]
  · intro h hn
    simp [write, h, hn]
  · intro h p hp
    refine ⟨?_, ?_⟩
    · simp [write, h, hp, print_with_timestamp_eq_spec]
    · intro hc
      have h64 : count % 2 ^ 64 = count :=
        Nat.mod_eq_of_lt (lt_trans hc (by norm_num))
      rw [isizeOfNat, h64, if_pos hc]

/-- C1 witness: the three branches of the WRITE contract at concrete
inputs — fd 7 is rejected; an untranslatable buffer is rejected; a
translated buffer of three bytes h, newline, i is emitted timestamped and
the call returns 3. -/
theorem write_contract_witness :
    (write (fun _ _ => none) (fun _ => 0) 7 true 7 64 3 = (-1, [], true))
    ∧ (write (fun _ _ => none) (fun _ => 0) 7 true 1 64 3 = (-1, [], true))
    ∧ (write (fun a _ => if a = 64 then some 100 else none)
          (fun i => if i = 101 then 10 else 104) 7 true 1 64 3
        = (isizeOfNat 3,
           specTimestamped (tsBytes 7) true
             (readBytes (fun i => if i = 101 then 10 else 104) 100 3),
           specLineState true
             (readBytes (fun i => if i = 101 then 10 else 104) 100 3))) :=
  ⟨(write_contract (fun _ _ => none) (fun _ => 0) 7 true 7 64 3).1 (by decide),
   (write_contract (fun _ _ => none) (fun _ => 0) 7 true 1 64 3).2.1 (Or.inl rfl) rfl,
   ((write_contract (fun a _ => if a = 64 then some 100 else none)
       (fun i => if i = 101 then 10 else 104) 7 true 1 64 3).2.2
     (Or.inl rfl) 100 rfl).1⟩

/-- C10: for a supported fd, WRITE success is decided solely by the single
translation of the starting virtual address: when it yields pointer p, all
count bytes are taken from consecutive memory after p and emitted (count is
unconstrained, so the read may span pages that were never translated), and
the whole result of write depends on the translation function only through
its value at the starting address. -/
theorem write_single_translation (tr tr2 : Nat → VmFlags → Option Nat)
    (mem : Nat → Nat) (tsMs : Nat) (ls : Bool) (fd buf count p : Nat)
    (hfd : fd = STDOUT ∨ fd = STDDEBUG) :
    (tr buf READABLE = some p →
      (write tr mem tsMs ls fd buf count).1 = isizeOfNat count
      ∧ (write tr mem tsMs ls fd buf count).2.1
          = (print_with_timestamp tsMs ls (readBytes mem p count)).1)
    ∧ ((∀ f, tr buf f = tr2 buf f) →
      write tr mem tsMs ls fd buf count = write tr2 mem tsMs ls fd buf count) := by
  refine ⟨?_, ?_⟩
  · intro hp
    refine ⟨?_, ?_⟩ <;> simp [write, hfd, hp]
  · intro hag
    simp only [write, hag READABLE]

/-- C10 witness: a translation function defined at the buffer start only
(every other address, including the following pages, is untranslatable)
still lets WRITE emit 8192 bytes spanning two further pages, and a second
translation function differing everywhere except at the buffer start gives
the identical result. -/
theorem write_single_translation_witness :
    ((write (fun a _ => if a = 4000 then some 4096 else none) (fun _ => 65)
        0 false 1 4000 8192).1 = isizeOfNat 8192
      ∧ (write (fun a _ => if a = 4000 then some 4096 else none) (fun _ => 65)
          0 false 1 4000 8192).2.1
          = (print_with_timestamp 0 false (readBytes (fun _ => 65) 4096 8192)).1)
    ∧ (write (fun a _ => if a = 4000 then some 4096 else none) (fun _ => 65)
        0 false 1 4000 8192
      = write (fun a _ => if a = 4000 then some 4096 else some 0) (fun _ => 65)
        0 false 1 4000 8192) :=
  ⟨(write_single_translation (fun a _ => if a = 4000 then some 4096 else none)
      (fun a _ => if a = 4000 then some 4096 else some 0) (fun _ => 65)
      0 false 1 4000 8192 4096 (Or.inl rfl)).1 rfl,
   (write_single_translation (fun a _ => if a = 4000 then some 4096 else none)
      (fun a _ => if a = 4000 then some 4096 else some 0) (fun _ => 65)
      0 false 1 4000 8192 4096 (Or.inl rfl)).2 (fun _ => rfl)⟩

/-- C7: CLOCK_GETTIME returns -1 for any clock id other than the monotonic
clock; for the monotonic clock it translates the pointer with write
permission; on failure it returns -1 with no store; on success it stores
the seconds/nanoseconds split of the scaled hardware cycle counter through
the translated pointer and returns 0. -/
theorem clock_gettime_contract (tr : Nat → VmFlags → Option Nat)
    (counter clockId tp : Nat) :
    (clockId ≠ CLOCK_MONOTONIC → clock_gettime tr counter clockId tp = (-1, []))
    ∧ (clockId = CLOCK_MONOTONIC → tr tp WRITABLE = none →
      clock_gettime tr counter clockId tp = (-1, []))
    ∧ (clockId = CLOCK_MONOTONIC → ∀ p, tr tp WRITABLE = some p →
      clock_gettime tr counter clockId tp
        = (0, [.store p ⟨monotonic_time_ns counter / 1000000000,
                         monotonic_time_ns counter % 1000000000⟩])) := by
  refine ⟨?_, ?_, ?_⟩
  · intro h
    simp [clock_gettime, h]
  · intro h hn
    simp [clock_gettime, h, hn]
  · intro h p hp
    simp [clock_gettime, h, hp]

/-- C7 witness: the three branches of the CLOCK_GETTIME contract at
concrete inputs; with cycle counter 250 the stored pair is 0 seconds and
20000 nanoseconds. -/
theorem clock_gettime_contract_witness :
    (clock_gettime (fun _ _ => none) 250 5 64 = (-1, []))
    ∧ (clock_gettime (fun _ _ => none) 250 1 64 = (-1, []))
    ∧ (clock_gettime (fun a _ => if a = 64 then some 900 else none) 250 1 64
        = (0, [.store 900 ⟨monotonic_time_ns 250 / 1000000000,
                           monotonic_time_ns 250 % 1000000000⟩])) :=
  ⟨(clock_gettime_contract (fun _ _ => none) 250 5 64).1 (by decide),
   (clock_gettime_contract (fun _ _ => none) 250 1 64).2.1 rfl rfl,
   (clock_gettime_contract (fun a _ => if a = 64 then some 900 else none)
      250 1 64).2.2 rfl 900 rfl⟩

/-- C4: when the head of a non-empty run queue traps with an EXIT
environment call, the scheduler iteration leaves exactly the tail of the
queue: the run queue is shortened by exactly one element, the removed
element is the head, and the remaining processes keep their order (the
result is the original tail itself). -/
theorem exit_removes_head (mem : Nat → Nat) (counter : Nat) (ls : Bool)
    (p : ProcState) (rest : List ProcState) (h7 : p.a7 = SYS_EXIT) :
    (scheduleStep mem counter .userEnvCall ⟨p :: rest, ls⟩).1.queue = rest
    ∧ (p :: rest).length
        = (scheduleStep mem counter .userEnvCall ⟨p :: rest, ls⟩).1.queue.length + 1 := by
  have hs : syscallHandle mem counter ls p SYS_EXIT = (.Done 0, [], ls) := rfl
  refine ⟨?_, ?_⟩ <;> simp [scheduleStep, h7, hs]

/-- C4 witness: a one-process queue whose head has the EXIT id in a7 is
emptied by one scheduler iteration. -/
theorem exit_removes_head_witness :
    (scheduleStep (fun _ => 0) 0 .userEnvCall
        ⟨[⟨0, 0, 0, 0, 0, 0, 0, 0, 93, fun _ _ => none⟩], true⟩).1.queue = []
    ∧ ([⟨0, 0, 0, 0, 0, 0, 0, 0, 93, fun _ _ => none⟩] : List ProcState).length
        = (scheduleStep (fun _ => 0) 0 .userEnvCall
            ⟨[⟨0, 0, 0, 0, 0, 0, 0, 0, 93, fun _ _ => none⟩], true⟩).1.queue.length + 1 :=
  exit_removes_head (fun _ => 0) 0 true ⟨0, 0, 0, 0, 0, 0, 0, 0, 93, fun _ _ => none⟩ [] rfl

/-- C5: a handled syscall id other than EXIT always yields a Done result,
and after the scheduler iteration the head process reappears at the head
with the return value (as a usize register image) written into a0 and the
saved program counter advanced by the 4-byte ecall instruction, every
other register and every other process unchanged. -/
theorem handled_syscall_updates_head (mem : Nat → Nat) (counter : Nat)
    (ls : Bool) (p : ProcState) (rest : List ProcState)
    (hne : p.a7 ≠ SYS_EXIT) :
    (handledId p.a7 = true →
      ∃ r, (syscallHandle mem counter ls p p.a7).1 = .Done r)
    ∧ (∀ ret effs ls2,
        syscallHandle mem counter ls p p.a7 = (.Done ret, effs, ls2) →
        (scheduleStep mem counter .userEnvCall ⟨p :: rest, ls⟩).1.queue
          = { p with a0 := regOfInt ret, pc := p.pc + 4 } :: rest) := by
  refine ⟨?_, ?_⟩
  · intro hh
    have h : p.a7 = SYS_EXIT ∨ p.a7 = SYS_WRITE ∨ p.a7 = SYS_SCHED_YIELD
        ∨ p.a7 = SYS_CLOCK_GETTIME := by simpa [handledId] using hh
    rcases h with h | h | h | h
    · exact absurd h hne
    · rw [h]
      exact ⟨(write p.translate mem (monotonic_time_ms counter) ls p.a0 p.a1 p.a2).1, rfl⟩
    · rw [h]
      exact ⟨0, rfl⟩
    · rw [h]
      exact ⟨(clock_gettime p.translate counter p.a0 p.a1).1, rfl⟩
  · intro ret effs ls2 hd
    simp [scheduleStep, hd, hne]

/-- C5 witness: a head process calling SCHED_YIELD (id 124) is kept at the
head with 0 written into a0 and the program counter moved from 64 to 68,
while the second queued process is untouched. -/
theorem handled_syscall_updates_head_witness :
    (scheduleStep (fun _ => 0) 0 .userEnvCall
        ⟨[⟨64, 5, 6, 7, 0, 0, 0, 0, 124, fun _ _ => none⟩,
          ⟨32, 1, 1, 1, 1, 1, 1, 1, 1, fun _ _ => none⟩], true⟩).1.queue
      = ⟨68, regOfInt 0, 6, 7, 0, 0, 0, 0, 124, fun _ _ => none⟩
        :: [⟨32, 1, 1, 1, 1, 1, 1, 1, 1, fun _ _ => none⟩] :=
  (handled_syscall_updates_head (fun _ => 0) 0 true
      ⟨64, 5, 6, 7, 0, 0, 0, 0, 124, fun _ _ => none⟩
      [⟨32, 1, 1, 1, 1, 1, 1, 1, 1, fun _ _ => none⟩] (by decide)).2 0 [] true rfl

/-- C6: an unsupported syscall id makes the scheduler iteration return
exactly the tail of the queue with no effects and an unchanged LINE_START
flag: only the head is removed, no register, address space or queue
position of any other process is mutated, and no return value or program
counter advance is applied to the (dropped, unmodified) head. -/
theorem unsupported_syscall_removes_only_head (mem : Nat → Nat)
    (counter : Nat) (ls : Bool) (p : ProcState) (rest : List ProcState)
    (hh : handledId p.a7 = false) :
    scheduleStep mem counter .userEnvCall ⟨p :: rest, ls⟩ = (⟨rest, ls⟩, []) := by
  have h : ¬(p.a7 = SYS_EXIT ∨ p.a7 = SYS_WRITE ∨ p.a7 = SYS_SCHED_YIELD
      ∨ p.a7 = SYS_CLOCK_GETTIME) := by simpa [handledId] using hh
  push_neg at h
  obtain ⟨h1, h2, h3, h4⟩ := h
  simp [scheduleStep, syscallHandle, h1, h2, h3, h4]

/-- C6 witness: a head process with unknown syscall id 999 is dropped and
the second process, fully unchanged, becomes the head; no effects are
produced. -/
theorem unsupported_syscall_removes_only_head_witness :
    scheduleStep (fun _ => 0) 0 .userEnvCall
        ⟨[⟨64, 5, 6, 7, 0, 0, 0, 0, 999, fun _ _ => none⟩,
          ⟨32, 1, 1, 1, 1, 1, 1, 1, 1, fun _ _ => none⟩], true⟩
      = (⟨[⟨32, 1, 1, 1, 1, 1, 1, 1, 1, fun _ _ => none⟩], true⟩, []) :=
  unsupported_syscall_removes_only_head (fun _ => 0) 0 true
    ⟨64, 5, 6, 7, 0, 0, 0, 0, 999, fun _ _ => none⟩
    [⟨32, 1, 1, 1, 1, 1, 1, 1, 1, fun _ _ => none⟩] (by decide)

/-- Shared helper: the segment loop of Process::new succeeds exactly when
every loadable segment is well-formed (page-internal offsets agree and the
file range fits in the image). -/
theorem loadSegs_ok_iff (input : List Nat) (ps : List ProgramHeader) :
    (∃ ms, loadSegs input ps = .ok ms) ↔ segsWellFormed input ps = true := by
  induction ps with
  | nil => simp [loadSegs, segsWellFormed]
  | cons p ps ih =>
    cases hp : p.phType with
    | Load =>
      by_cases h1 : p.offset % 4096 = p.virtualAddr % 4096
      · by_cases h2 : p.offset + p.fileSize ≤ input.length
        · cases hr : loadSegs input ps with
          | ok ms =>
            have hwf : segsWellFormed input ps = true := ih.mp ⟨ms, hr⟩
            simp [loadSegs, segsWellFormed, hp, h1, h2, hr, hwf]
          | error e =>
            have hwf : segsWellFormed input ps = false := by
              cases hb : segsWellFormed input ps with
              | false => rfl
              | true =>
                obtain ⟨ms, hms⟩ := ih.mpr hb
                rw [hr] at hms
                cases hms
            simp [loadSegs, segsWellFormed, hp, h1, h2, hr, hwf]
        · simp [loadSegs, segsWellFormed, hp, h1, h2]
      · simp [loadSegs, segsWellFormed, hp, h1]
    | otherPh t =>
      simpa [loadSegs, segsWellFormed, hp] using ih

/-- A header-valid RISC-V executable image whose single loadable segment
violates the page-offset invariant: file offset 1 and virtual address 0
disagree modulo the page size, so the assert in Process::new fires. -/
def misalignedElf : ElfFile :=
  { pt2 := HeaderPt2.Header64 ElfObjType.Executable Machine.RISC_V 4096
    programs := [{ phType := .Load, offset := 1, fileSize := 0, virtualAddr := 0,
                   memSize := 0, isExecute := true, isWrite := false, isRead := true }]
    input := [0, 0, 0, 0] }

/-- C2 counterexample: an image that is an executable for the target
instruction-set architecture (so it passes the validation the claim speaks
of) on which the loader neither returns Some nor returns None: it panics
on the segment page-offset assert.  This refutes "returns Some(Process)
exactly when the image passes validation" as stated. -/
theorem loader_validation_counterexample :
    headerValid misalignedElf = true
    ∧ Process.new 0 0 misalignedElf = .error () :=
  ⟨rfl, rfl⟩

/-- C2 amended: the loader returns None (no process, no fatal condition)
whenever the image is not a 64-bit executable for the RISC-V architecture;
when the header validation passes, it returns Some(Process) if and only if
every loadable segment is well-formed (page-offset invariant holds and the
file range fits), and otherwise — header valid but some loadable segment
malformed — it panics (the Except error) rather than returning Some or
None. -/
theorem loader_validation (rootPpn stackPpn : Nat) (elf : ElfFile) :
    (headerValid elf = false → Process.new rootPpn stackPpn elf = .ok none)
    ∧ (headerValid elf = true →
      ((∃ p, Process.new rootPpn stackPpn elf = .ok (some p))
        ↔ segsWellFormed elf.input elf.programs = true))
    ∧ (headerValid elf = true → segsWellFormed elf.input elf.programs = false →
      Process.new rootPpn stackPpn elf = .error ()) := by
  refine ⟨?_, ?_, ?_⟩
  · intro hv
    cases helf : elf.pt2 with
    | Header32 t m e => simp [Process.new, helf]
    | Header64 typ machine entry =>
      have hc : ¬(typ = ElfObjType.Executable ∧ machine = Machine.RISC_V) := by
        simpa [headerValid, helf] using hv
      simp [Process.new, helf, hc]
  · intro hv
    cases helf : elf.pt2 with
    | Header32 t m e => simp [headerValid, helf] at hv
    | Header64 typ machine entry =>
      have hc : typ = ElfObjType.Executable ∧ machine = Machine.RISC_V := by
        simpa [headerValid, helf] using hv
      obtain ⟨rfl, rfl⟩ := hc
      rw [← loadSegs_ok_iff elf.input elf.programs]
      cases hls : loadSegs elf.input elf.programs with
      | ok segs =>
        constructor
        · intro _
          exact ⟨segs, rfl⟩
        · intro _
          refine ⟨⟨entry, 1 <<< 38, (8 <<< 60) ||| rootPpn,
            segs ++ [.mapExtern ((1 <<< 26) - 2) (1 <<< 26) stackPpn stackFlags]⟩, ?_⟩
          simp [Process.new, helf, hls]
      | error e =>
        constructor
        · rintro ⟨p, hp⟩
          simp [Process.new, helf, hls] at hp
        · rintro ⟨ms, hms⟩
          cases hms
  · intro hv hwf
    cases helf : elf.pt2 with
    | Header32 t m e => simp [headerValid, helf] at hv
    | Header64 typ machine entry =>
      have hc : typ = ElfObjType.Executable ∧ machine = Machine.RISC_V := by
        simpa [headerValid, helf] using hv
      obtain ⟨rfl, rfl⟩ := hc
      cases hls : loadSegs elf.input elf.programs with
      | ok segs =>
        have hok : segsWellFormed elf.input elf.programs = true :=
          (loadSegs_ok_iff elf.input elf.programs).mp ⟨segs, hls⟩
        rw [hok] at hwf
        cases hwf
      | error e =>
        cases e
        simp [Process.new, helf, hls]

/-- Non-executable sample image (file type is not Executable). -/
def skipElf : ElfFile :=
  { pt2 := HeaderPt2.Header64 (ElfObjType.otherType 3) Machine.RISC_V 64
    programs := []
    input := [] }

/-- Well-formed single-segment executable sample image with entry point 64. -/
def goodElf : ElfFile :=
  { pt2 := HeaderPt2.Header64 ElfObjType.Executable Machine.RISC_V 64
    programs := [{ phType := .Load, offset := 0, fileSize := 2, virtualAddr := 0,
                   memSize := 4, isExecute := true, isWrite := false, isRead := true }]
    input := [1, 2] }

/-- The process Process::new constructs from goodElf with root page 1 and
stack pages at 2. -/
def goodProcess : Process :=
  { pc := 64
    sp := 1 <<< 38
    satp := (8 <<< 60) ||| 1
    maps := [.map 0 1 [1, 2] 0 ⟨true, true, false, true, true, false⟩,
             .mapExtern ((1 <<< 26) - 2) (1 <<< 26) 2 stackFlags] }

/-- C2 witness: a non-executable image yields None; a well-formed
executable image yields a process; a header-valid image with a misaligned
loadable segment panics. -/
theorem loader_validation_witness :
    Process.new 0 0 skipElf = .ok none
    ∧ (∃ p, Process.new 1 2 goodElf = .ok (some p))
    ∧ Process.new 0 0 misalignedElf = .error () :=
  ⟨(loader_validation 0 0 skipElf).1 rfl,
   ((loader_validation 1 2 goodElf).2.1 rfl).mpr rfl,
   (loader_validation 0 0 misalignedElf).2.2 rfl rfl⟩

/-- C3: every process the loader constructs has its saved program counter
equal to the ELF entry point and its saved stack pointer equal to the top
of the mapped two-page stack range: the stack is mapped over virtual pages
2^26 - 2 up to 2^26, whose top address (2^26) * 4096 is the fixed high
address 2^38 held in the stack pointer. -/
theorem loader_context (rootPpn stackPpn : Nat) (elf : ElfFile) (p : Process)
    (h : Process.new rootPpn stackPpn elf = .ok (some p)) :
    p.pc = elf.entry
    ∧ p.sp = 1 <<< 38
    ∧ MapOp.mapExtern ((1 <<< 26) - 2) (1 <<< 26) stackPpn stackFlags ∈ p.maps
    ∧ p.sp = (1 <<< 26) * 4096
    ∧ (1 <<< 26) - ((1 <<< 26) - 2) = 2 := by
  cases helf : elf.pt2 with
  | Header32 t m e =>
    simp [Process.new, helf] at h
  | Header64 typ machine entry =>
    simp only [Process.new, helf] at h
    by_cases hc : typ = ElfObjType.Executable ∧ machine = Machine.RISC_V
    · rw [if_pos hc] at h
      cases hls : loadSegs elf.input elf.programs with
      | ok segs =>
        rw [hls] at h
        have hpe := Option.some.inj (Except.ok.inj h)
        subst hpe
        refine ⟨?_, rfl, ?_, ?_, by decide⟩
        · simp [ElfFile.entry, helf]
        · simp
        · show (1 <<< 38 : Nat) = (1 <<< 26) * 4096
          decide
      | error e =>
        rw [hls] at h
        cases h
    · rw [if_neg hc] at h
      cases h

/-- C3 witness: the concrete single-segment executable with entry point 64
yields the concrete process whose program counter is 64 and whose stack
pointer is the top of the two-page stack range at 2^38. -/
theorem loader_context_witness :
    goodProcess.pc = goodElf.entry
    ∧ goodProcess.sp = 1 <<< 38
    ∧ MapOp.mapExtern ((1 <<< 26) - 2) (1 <<< 26) 2 stackFlags ∈ goodProcess.maps
    ∧ goodProcess.sp = (1 <<< 26) * 4096
    ∧ (1 <<< 26) - ((1 <<< 26) - 2) = 2 :=
  loader_context 1 2 goodElf goodProcess rfl

/-- C8: every invocation of the machine-mode trap handler with a trap
cause other than 9 (environment call from the next-lower privilege level)
returns the unsupported sentinel — the fixed negative error code -2 with
value 0 — and leaves the device state completely unchanged (no UART,
timer, interrupt-pending or finisher write). -/
theorem m_trap_non_ecall (mcause : Nat) (rx : Option Nat) (s : Msbi.MState)
    (a0 a1 a2 a3 a4 a5 fid eid : Nat) (h : mcause ≠ 9) :
    Msbi.m_trap_handler mcause rx s a0 a1 a2 a3 a4 a5 fid eid
      = .ret Msbi.SbiRet.notSupported s
    ∧ Msbi.SbiRet.notSupported.error < 0
    ∧ Msbi.SbiRet.notSupported.value = 0 := by
  refine ⟨?_, by decide, rfl⟩
  simp [Msbi.m_trap_handler, h]

/-- C8 witness: an illegal-instruction cause (mcause 2) with arbitrary
arguments and a nontrivial device state returns the sentinel and the very
same state. -/
theorem m_trap_non_ecall_witness :
    Msbi.m_trap_handler 2 (some 7) ⟨11, 22, [33], none⟩ 1 2 3 4 5 6 0 1
      = .ret Msbi.SbiRet.notSupported ⟨11, 22, [33], none⟩
    ∧ Msbi.SbiRet.notSupported.error < 0
    ∧ Msbi.SbiRet.notSupported.value = 0 :=
  m_trap_non_ecall 2 (some 7) ⟨11, 22, [33], none⟩ 1 2 3 4 5 6 0 1 (by decide)

/-- C9: an SBI timer call (ecall from S-mode, timer extension id) with the
64-bit time T assembled from the two argument registers — a0 as the low
half, a1 shifted left 32 bits — leaves the timer-compare register equal to
T, clears the pending supervisor-timer-interrupt bit (bit 5 of mip), leaves
the UART and finisher untouched, and returns success with error code 0 and
value 0. -/
theorem sbi_timer_call (rx : Option Nat) (s : Msbi.MState)
    (a0 a1 a2 a3 a4 a5 fid : Nat) :
    Msbi.m_trap_handler 9 rx s a0 a1 a2 a3 a4 a5 fid 0x54494D45
      = .ret (Msbi.SbiRet.success 0)
          { s with mtimecmp := Msbi.assembleTime a0 a1,
                   mip := Nat.ldiff s.mip (1 <<< 5) }
    ∧ Nat.testBit (Nat.ldiff s.mip (1 <<< 5)) 5 = false
    ∧ Msbi.SbiRet.success 0 = ⟨0, 0⟩ := by
  refine ⟨?_, ?_, rfl⟩
  · simp [Msbi.m_trap_handler, Msbi.handle_timer]
  · have h32 : Nat.testBit (1 <<< 5) 5 = true := by decide
    rw [Nat.testBit_ldiff, h32, Bool.not_true, Bool.and_false]

end Kernel
